import Mathlib

/-!
# NEVERHANG reliability layer — shallow embedding

Shallow embedding of the reliability core of the pfsense-mcp repository
(`src/neverhang.ts`, exported through `src/index.ts`): the circuit breaker,
the health monitor, the adaptive-timeout calculator and the manager facade.

Modelling conventions:
* Milliseconds timestamps (`Date.now()`) are integers `ℤ`; every method that
  reads the clock takes the current time `now` as an explicit argument.
* A method that mutates `this.state` becomes a function returning the new
  state; methods whose only external effect is a possible `persistState()`
  write additionally return a `Bool` saying whether that write happened.
* The JavaScript `console.error` logging is dropped; it has no effect on
  state.
-/

namespace Neverhang

/-- `NeverhangConfig` (src/neverhang.ts): the fields the reliability
algorithms read.  All durations are in milliseconds. -/
structure NeverhangConfig where
  base_timeout_ms : ℕ
  circuit_failure_threshold : ℕ
  circuit_failure_window_ms : ℕ
  circuit_open_duration_ms : ℕ
  circuit_recovery_threshold : ℕ
  adaptive_timeout : Bool
  min_timeout_ms : ℕ
  max_timeout_ms : ℕ
  deriving Repr, DecidableEq

/-- `DEFAULT_NEVERHANG_CONFIG` (src/neverhang.ts). -/
def DEFAULT_NEVERHANG_CONFIG : NeverhangConfig :=
  { base_timeout_ms := 10000
    circuit_failure_threshold := 5
    circuit_failure_window_ms := 60000
    circuit_open_duration_ms := 30000
    circuit_recovery_threshold := 2
    adaptive_timeout := true
    min_timeout_ms := 2000
    max_timeout_ms := 60000 }

/-- `CircuitState` (src/neverhang.ts): `"closed" | "open" | "half-open"`. -/
inductive CircuitState where
  | closed
  | open
  | halfOpen
  deriving Repr, DecidableEq

/-- `CircuitBreakerState` (src/neverhang.ts). -/
structure CircuitBreakerState where
  state : CircuitState
  failures : List ℤ
  opened_at : Option ℤ
  half_open_successes : ℕ
  deriving Repr, DecidableEq

namespace CircuitBreaker

/-- The in-memory state the no-database `CircuitBreaker` constructor builds. -/
def initState : CircuitBreakerState :=
  { state := .closed, failures := [], opened_at := none, half_open_successes := 0 }

/-- `CircuitBreaker.cleanOldFailures`: drop failure timestamps at or before
`now - circuit_failure_window_ms` (the filter keeps `t > cutoff`). -/
def cleanOldFailures (cfg : NeverhangConfig) (now : ℤ) (s : CircuitBreakerState) :
    CircuitBreakerState :=
  { s with failures := s.failures.filter (fun t => now - (cfg.circuit_failure_window_ms : ℤ) < t) }

/-- `CircuitBreaker.canExecute`: returns the new state and the boolean the
method returns. -/
def canExecute (cfg : NeverhangConfig) (now : ℤ) (s : CircuitBreakerState) :
    CircuitBreakerState × Bool :=
  let s1 := cleanOldFailures cfg now s
  match s1.state with
  | .closed => (s1, true)
  | .open =>
    match s1.opened_at with
    | some t =>
      if (cfg.circuit_open_duration_ms : ℤ) ≤ now - t then
        ({ s1 with state := .halfOpen, half_open_successes := 0 }, true)
      else
        (s1, false)
    | none => (s1, false)
  | .halfOpen => (s1, true)

/-- `CircuitBreaker.recordSuccess`: returns the new state and whether
`persistState()` ran. -/
def recordSuccess (cfg : NeverhangConfig) (s : CircuitBreakerState) :
    CircuitBreakerState × Bool :=
  if s.state = .halfOpen then
    let h := s.half_open_successes + 1
    if cfg.circuit_recovery_threshold ≤ h then
      ({ state := .closed, failures := [], opened_at := none, half_open_successes := h }, true)
    else
      ({ s with half_open_successes := h }, false)
  else
    (s, false)

/-- `CircuitBreaker.recordFailure`: returns the new state and whether
`persistState()` ran. -/
def recordFailure (cfg : NeverhangConfig) (now : ℤ) (excludeFromCircuit : Bool)
    (s : CircuitBreakerState) : CircuitBreakerState × Bool :=
  if excludeFromCircuit then (s, false)
  else
    let s1 := cleanOldFailures cfg now { s with failures := s.failures ++ [now] }
    if s1.state = .halfOpen then
      ({ s1 with state := .open, opened_at := some now }, true)
    else if s1.state = .closed ∧ cfg.circuit_failure_threshold ≤ s1.failures.length then
      ({ s1 with state := .open, opened_at := some now }, true)
    else
      (s1, false)

/-- Fold a list of failure times through `recordFailure` (not excluded). -/
def applyFailures (cfg : NeverhangConfig) (ts : List ℤ) (s : CircuitBreakerState) :
    CircuitBreakerState :=
  ts.foldl (fun s t => (recordFailure cfg t false s).1) s

/-- Iterate `recordSuccess` `n` times. -/
def applySuccesses (cfg : NeverhangConfig) : ℕ → CircuitBreakerState → CircuitBreakerState
  | 0, s => s
  | n + 1, s => (recordSuccess cfg (applySuccesses cfg n s)).1

end CircuitBreaker

/-- `HealthStatus` (src/neverhang.ts): `"healthy" | "degraded" | "unhealthy"`. -/
inductive HealthStatus where
  | healthy
  | degraded
  | unhealthy
  deriving Repr, DecidableEq

/-- `HealthState` (src/neverhang.ts). -/
structure HealthState where
  status : HealthStatus
  last_check : Option ℤ
  last_success : Option ℤ
  last_failure : Option ℤ
  latency_ms : ℤ
  latency_samples : List ℤ
  consecutive_failures : ℕ
  consecutive_successes : ℕ
  deriving Repr, DecidableEq

namespace HealthMonitor

/-- The state the `HealthMonitor` constructor builds. -/
def initState : HealthState :=
  { status := .healthy, last_check := none, last_success := none, last_failure := none
    latency_ms := 0, latency_samples := [], consecutive_failures := 0
    consecutive_successes := 0 }

/-- `HealthMonitor.recordSuccess` (the `shift` after `push` keeps the last 10
samples, i.e. drops the head). -/
def recordSuccess (now latency_ms : ℤ) (s : HealthState) : HealthState :=
  let s1 : HealthState :=
    { s with last_check := some now, last_success := some now
             latency_ms := latency_ms
             consecutive_failures := 0
             consecutive_successes := s.consecutive_successes + 1 }
  let samples := s1.latency_samples ++ [latency_ms]
  let s2 := { s1 with latency_samples := if 10 < samples.length then samples.tail else samples }
  if s2.status = .unhealthy ∧ 1 ≤ s2.consecutive_successes then
    { s2 with status := .degraded }
  else if s2.status = .degraded ∧ 3 ≤ s2.consecutive_successes then
    { s2 with status := .healthy }
  else
    s2

/-- `HealthMonitor.recordFailure`. -/
def recordFailure (now : ℤ) (s : HealthState) : HealthState :=
  let s1 : HealthState :=
    { s with last_check := some now, last_failure := some now
             consecutive_successes := 0
             consecutive_failures := s.consecutive_failures + 1 }
  if s1.status = .healthy ∧ 1 ≤ s1.consecutive_failures then
    { s1 with status := .degraded }
  else if s1.status = .degraded ∧ 3 ≤ s1.consecutive_failures then
    { s1 with status := .unhealthy }
  else
    s1

/-- `HealthMonitor.getLatencyP95`.  The source sorts with the comparator
`(a, b) => a - b` (ascending) and indexes at `Math.floor(sorted.length * 0.95)`;
for the window sizes that can occur (≤ 10 samples) that floating-point floor
equals `length * 95 / 100` in integer arithmetic. -/
def getLatencyP95 (s : HealthState) : ℤ :=
  if s.latency_samples.isEmpty then 0
  else
    let sorted := List.insertionSort (· ≤ ·) s.latency_samples
    let idx := sorted.length * 95 / 100
    sorted.getD (min idx (sorted.length - 1)) 0

/-- One probe outcome, as fed to the monitor by `ping()`. -/
inductive ProbeOutcome where
  | success (now latency_ms : ℤ)
  | failure (now : ℤ)
  deriving Repr, DecidableEq

/-- Apply one probe outcome. -/
def step (s : HealthState) : ProbeOutcome → HealthState
  | .success now lat => recordSuccess now lat s
  | .failure now => recordFailure now s

/-- Apply a sequence of probe outcomes. -/
def run (s : HealthState) (os : List ProbeOutcome) : HealthState :=
  os.foldl step s

end HealthMonitor

/-- `OperationComplexity` (src/neverhang.ts), in declaration order. -/
inductive OperationComplexity where
  | simple
  | interface
  | firewall
  | config
  | dangerous
  deriving Repr, DecidableEq

/-- `pat.isPrefixOf l || ...` scan embedding JavaScript
`String.prototype.includes` on the underlying character lists. -/
def charsContain (pat : List Char) : List Char → Bool
  | [] => pat.isEmpty
  | c :: t => pat.isPrefixOf (c :: t) || charsContain pat t

/-- JavaScript `s.includes(pat)`. -/
def strIncludes (s pat : String) : Bool :=
  charsContain pat.toList s.toList

/-- `classifyOperation` (src/neverhang.ts). -/
def classifyOperation (toolName : String) : OperationComplexity :=
  if strIncludes toolName "_info" || strIncludes toolName "_status" ||
     strIncludes toolName "_list" || strIncludes toolName "_leases" ||
     strIncludes toolName "_logs" || toolName = "pf_health" then
    .simple
  else if strIncludes toolName "interface" then
    if strIncludes toolName "restart" || strIncludes toolName "enable" ||
       strIncludes toolName "disable" then .interface else .simple
  else if strIncludes toolName "firewall" || strIncludes toolName "nat" ||
          strIncludes toolName "alias" then
    if strIncludes toolName "add" || strIncludes toolName "delete" ||
       strIncludes toolName "modify" then .firewall else .simple
  else if strIncludes toolName "reboot" || strIncludes toolName "shutdown" ||
          strIncludes toolName "packages" || strIncludes toolName "backup" then
    .dangerous
  else if strIncludes toolName "_config" || strIncludes toolName "_add" ||
          strIncludes toolName "_delete" || strIncludes toolName "_modify" then
    .config
  else
    .simple

namespace AdaptiveTimeout

/-- The complexity factor applied by the `switch` in `AdaptiveTimeout.getTimeout`.
The factors (2, 1.5, 6, …) and their products with the integer config values
are exactly representable in IEEE doubles, so exact rationals are faithful. -/
def complexityMultiplier : OperationComplexity → ℚ
  | .simple => 1
  | .interface => 2
  | .firewall => 3 / 2
  | .config => 2
  | .dangerous => 6

/-- The health factor applied by `AdaptiveTimeout.getTimeout`. -/
def healthMultiplier : HealthStatus → ℚ
  | .healthy => 1
  | .degraded => 1 / 2
  | .unhealthy => 1 / 4

/-- JavaScript `Math.round` on the (non-negative) values that occur here:
round half away from zero, i.e. `⌊x + 1/2⌋`. -/
def jsRound (x : ℚ) : ℤ :=
  ⌊x + 1 / 2⌋

/-- `AdaptiveTimeout.getTimeout` (the returned `timeout_ms`; the `reason`
string is dropped). -/
def getTimeout (cfg : NeverhangConfig) (toolName : String) (healthStatus : HealthStatus)
    (userOverride : Option ℤ) : ℚ :=
  match userOverride with
  | some o =>
    min (max (o : ℚ) (cfg.min_timeout_ms : ℚ)) (cfg.max_timeout_ms : ℚ)
  | none =>
    if cfg.adaptive_timeout = false then (cfg.base_timeout_ms : ℚ)
    else
      let multiplier :=
        complexityMultiplier (classifyOperation toolName) * healthMultiplier healthStatus
      let timeout := (cfg.base_timeout_ms : ℚ) * multiplier
      let clamped := min (max timeout (cfg.min_timeout_ms : ℚ)) (cfg.max_timeout_ms : ℚ)
      (jsRound clamped : ℚ)

end AdaptiveTimeout

/-- The persisted circuit-state string: `"half-open"` is stored as
`"half_open"` (see `CircuitBreaker.persistState`). -/
inductive PersistedState where
  | closed
  | open
  | half_open
  deriving Repr, DecidableEq

/-- The record `CircuitBreaker.persistState` writes and the constructor
reads back. -/
structure PersistedCircuitState where
  state : PersistedState
  failure_count : ℕ
  last_failure_at : Option ℤ
  opened_at : Option ℤ
  recovery_successes : ℕ
  deriving Repr, DecidableEq

namespace CircuitBreaker

/-- The record built by `CircuitBreaker.persistState`. -/
def persistRecord (s : CircuitBreakerState) : PersistedCircuitState :=
  { state :=
      match s.state with
      | .closed => .closed
      | .open => .open
      | .halfOpen => .half_open
    failure_count := s.failures.length
    last_failure_at := s.failures.getLast?
    opened_at := s.opened_at
    recovery_successes := s.half_open_successes }

/-- The in-memory state the `CircuitBreaker` constructor builds from a loaded
record (`Array(saved.failure_count).fill(saved.last_failure_at)`).  The source
guards with JavaScript truthiness: `saved.failure_count > 0 &&
saved.last_failure_at` and `saved.opened_at ? new Date(saved.opened_at) :
null`, so a stored timestamp of `0` (falsy) reloads as `[]` / `null`. -/
def loadState (saved : PersistedCircuitState) : CircuitBreakerState :=
  { state :=
      match saved.state with
      | .closed => .closed
      | .open => .open
      | .half_open => .halfOpen
    failures :=
      match saved.last_failure_at with
      | some t =>
        if 0 < saved.failure_count ∧ t ≠ 0 then List.replicate saved.failure_count t else []
      | none => []
    opened_at :=
      match saved.opened_at with
      | some t => if t ≠ 0 then some t else none
      | none => none
    half_open_successes := saved.recovery_successes }

end CircuitBreaker

/-- Modelled from the spec: `saveCircuitState` lives in `src/db.ts`, which is
not among the provided sources; per §4.4 it is an idempotent upsert of the
single current-state record. -/
def saveCircuitState (_store : Option PersistedCircuitState) (r : PersistedCircuitState) :
    Option PersistedCircuitState :=
  some r

/-- Modelled from the spec: `loadCircuitState` lives in `src/db.ts`, which is
not among the provided sources; per §6 it returns the stored record, or the
`closed` default when none was saved. -/
def loadCircuitState (store : Option PersistedCircuitState) : PersistedCircuitState :=
  store.getD
    { state := .closed, failure_count := 0, last_failure_at := none, opened_at := none
      recovery_successes := 0 }

/-- One row of the append-only API-call metrics log. -/
structure ApiCallRecord where
  tool_name : String
  complexity : OperationComplexity
  duration_ms : ℤ
  success : Bool
  error_type : Option String
  deriving Repr, DecidableEq

/-- The persistent store as seen by the manager: the single circuit-state
record plus the append-only call log. -/
structure StoreState where
  circuit_state : Option PersistedCircuitState
  api_calls : List ApiCallRecord
  deriving Repr, DecidableEq

/-- Modelled from the spec: `recordApiCall` lives in `src/db.ts`, which is not
among the provided sources; per §4.4 it appends one row to the metrics log. -/
def recordApiCall (st : StoreState) (r : ApiCallRecord) : StoreState :=
  { st with api_calls := st.api_calls ++ [r] }

/-- The mutable state of `NeverhangManager` together with its store. -/
structure ManagerState where
  health : HealthState
  circuit : CircuitBreakerState
  total_calls : ℕ
  successful_calls : ℕ
  store : StoreState
  deriving Repr, DecidableEq

namespace NeverhangManager

/-- `NeverhangManager.recordSuccess`: bump the counters, let the breaker
record the success (persisting the circuit record when it transitions), and
append one metrics row. -/
def recordSuccess (cfg : NeverhangConfig) (toolName : String) (durationMs : ℤ)
    (m : ManagerState) : ManagerState :=
  let r := CircuitBreaker.recordSuccess cfg m.circuit
  let store0 :=
    if r.2 then
      { m.store with
        circuit_state := saveCircuitState m.store.circuit_state (CircuitBreaker.persistRecord r.1) }
    else m.store
  let store1 := recordApiCall store0
    { tool_name := toolName, complexity := classifyOperation toolName
      duration_ms := durationMs, success := true, error_type := none }
  { m with total_calls := m.total_calls + 1
           successful_calls := m.successful_calls + 1
           circuit := r.1
           store := store1 }

/-- `NeverhangManager.recordFailure`: bump the total counter, let the breaker
record the failure (with `excludeFromCircuit = false`, persisting on a
transition), and append one metrics row. -/
def recordFailure (cfg : NeverhangConfig) (toolName : String) (durationMs : ℤ)
    (errorType : Option String) (now : ℤ) (m : ManagerState) : ManagerState :=
  let r := CircuitBreaker.recordFailure cfg now false m.circuit
  let store0 :=
    if r.2 then
      { m.store with
        circuit_state := saveCircuitState m.store.circuit_state (CircuitBreaker.persistRecord r.1) }
    else m.store
  let store1 := recordApiCall store0
    { tool_name := toolName, complexity := classifyOperation toolName
      duration_ms := durationMs, success := false, error_type := errorType }
  { m with total_calls := m.total_calls + 1
           circuit := r.1
           store := store1 }

end NeverhangManager

/-- Numeric severity of a health status (healthy 0, degraded 1, unhealthy 2);
used to state the one-step hysteresis bound. -/
def statusRank : HealthStatus → ℤ
  | .healthy => 0
  | .degraded => 1
  | .unhealthy => 2

/-- Position of a health status in the degradation order
healthy → degraded → unhealthy. -/
def healthSeverity : HealthStatus → ℕ
  | .healthy => 0
  | .degraded => 1
  | .unhealthy => 2

/-- Position of a complexity class in the order of its timeout factor:
simple (1×) ≤ firewall (1.5×) ≤ interface (2×) = config (2×) ≤ dangerous (6×). -/
def complexityEscalation : OperationComplexity → ℕ
  | .simple => 0
  | .firewall => 1
  | .interface => 2
  | .config => 2
  | .dangerous => 3

/-- The default config with the adaptive calculator disabled and a base
timeout below the configured minimum. -/
def lowBaseNoAdaptiveConfig : NeverhangConfig :=
  { DEFAULT_NEVERHANG_CONFIG with adaptive_timeout := false, base_timeout_ms := 1000 }

/-- Response equivalence of two breaker states for the next incoming call:
at any later time `T`, `canExecute` returns the same boolean and leads to the
same circuit state and success count, and `recordSuccess` / `recordFailure`
lead to the same circuit state and make the same persistence decision. -/
def NextCallEquiv (cfg : NeverhangConfig) (a b : CircuitBreakerState) : Prop :=
  ∀ T : ℤ,
    (CircuitBreaker.canExecute cfg T a).2 = (CircuitBreaker.canExecute cfg T b).2 ∧
    (CircuitBreaker.canExecute cfg T a).1.state = (CircuitBreaker.canExecute cfg T b).1.state ∧
    (CircuitBreaker.canExecute cfg T a).1.half_open_successes
      = (CircuitBreaker.canExecute cfg T b).1.half_open_successes ∧
    (CircuitBreaker.recordSuccess cfg a).1.state = (CircuitBreaker.recordSuccess cfg b).1.state ∧
    (CircuitBreaker.recordSuccess cfg a).2 = (CircuitBreaker.recordSuccess cfg b).2 ∧
    (CircuitBreaker.recordFailure cfg T false a).1.state
      = (CircuitBreaker.recordFailure cfg T false b).1.state ∧
    (CircuitBreaker.recordFailure cfg T false a).2
      = (CircuitBreaker.recordFailure cfg T false b).2

end Neverhang

/-! ## Theorems -/

open Neverhang
open Neverhang.CircuitBreaker

section CircuitLemmas

lemma cleanOldFailures_state (cfg : NeverhangConfig) (now : ℤ) (s : CircuitBreakerState) :
    (cleanOldFailures cfg now s).state = s.state := rfl

lemma cleanOldFailures_opened_at (cfg : NeverhangConfig) (now : ℤ) (s : CircuitBreakerState) :
    (cleanOldFailures cfg now s).opened_at = s.opened_at := rfl

end CircuitLemmas

/-- C10: for every `CircuitBreakerState`, calling `CircuitBreaker.recordFailure`
with `excludeFromCircuit = true` is a complete no-op: the state (all four
fields) is returned unchanged and no persistence write happens. -/
theorem c10_recordFailure_excluded_noop (cfg : NeverhangConfig) (now : ℤ)
    (s : CircuitBreakerState) :
    recordFailure cfg now true s = (s, false) := rfl

/-- C2: while the breaker is `open` with `openedAt = t0`, `canExecute` at a
time with elapsed `now - t0` strictly below `circuit_open_duration_ms` returns
`false` and leaves the state `open`; as soon as the elapsed time reaches
`circuit_open_duration_ms`, `canExecute` returns `true` and the state becomes
`half-open` with `halfOpenSuccesses` reset to `0`. -/
theorem c2_open_canExecute (cfg : NeverhangConfig) (now t0 : ℤ) (s : CircuitBreakerState)
    (hs : s.state = .open) (ht : s.opened_at = some t0) :
    (now - t0 < (cfg.circuit_open_duration_ms : ℤ) →
      (canExecute cfg now s).2 = false ∧ (canExecute cfg now s).1.state = .open) ∧
    ((cfg.circuit_open_duration_ms : ℤ) ≤ now - t0 →
      (canExecute cfg now s).2 = true ∧ (canExecute cfg now s).1.state = .halfOpen ∧
      (canExecute cfg now s).1.half_open_successes = 0) := by
  obtain ⟨st, fs, oa, hos⟩ := s
  simp only [CircuitBreakerState.state] at hs
  simp only [CircuitBreakerState.opened_at] at ht
  subst hs; subst ht
  constructor
  · intro hlt
    simp [canExecute, cleanOldFailures, not_le.mpr hlt]
  · intro hge
    simp [canExecute, cleanOldFailures, hge]

/-- C2 witness: with the default config, a breaker opened at `t0 = 0` still
rejects at `now = 29999` and flips to half-open (returning `true`) at
`now = 30000`. -/
theorem c2_open_canExecute_witness :
    (((29999 : ℤ) - 0 < (DEFAULT_NEVERHANG_CONFIG.circuit_open_duration_ms : ℤ)) ∧
      (canExecute DEFAULT_NEVERHANG_CONFIG 29999
        ⟨.open, [], some 0, 0⟩).2 = false) ∧
    (((DEFAULT_NEVERHANG_CONFIG.circuit_open_duration_ms : ℤ) ≤ (30000 : ℤ) - 0) ∧
      (canExecute DEFAULT_NEVERHANG_CONFIG 30000
        ⟨.open, [], some 0, 0⟩).2 = true ∧
      (canExecute DEFAULT_NEVERHANG_CONFIG 30000
        ⟨.open, [], some 0, 0⟩).1.state = .halfOpen) := by
  have h1 := (c2_open_canExecute DEFAULT_NEVERHANG_CONFIG 29999 0
    ⟨.open, [], some 0, 0⟩ rfl rfl).1 (by decide)
  have h2 := (c2_open_canExecute DEFAULT_NEVERHANG_CONFIG 30000 0
    ⟨.open, [], some 0, 0⟩ rfl rfl).2 (by decide)
  exact ⟨⟨by decide, h1.1⟩, ⟨by decide, h2.1, h2.2.1⟩⟩

section BreakerStepLemmas

lemma recordFailure_open_eq (cfg : NeverhangConfig) (now : ℤ) (s : CircuitBreakerState)
    (hs : s.state = .open) :
    recordFailure cfg now false s =
      (cleanOldFailures cfg now { s with failures := s.failures ++ [now] }, false) := by
  obtain ⟨st, fs, oa, hos⟩ := s
  simp only [CircuitBreakerState.state] at hs
  subst hs
  rfl

lemma recordFailure_halfOpen_eq (cfg : NeverhangConfig) (now : ℤ) (s : CircuitBreakerState)
    (hs : s.state = .halfOpen) :
    recordFailure cfg now false s =
      ({ cleanOldFailures cfg now { s with failures := s.failures ++ [now] } with
          state := .open, opened_at := some now }, true) := by
  obtain ⟨st, fs, oa, hos⟩ := s
  simp only [CircuitBreakerState.state] at hs
  subst hs
  rfl

lemma recordFailure_closed_eq (cfg : NeverhangConfig) (now : ℤ) (s : CircuitBreakerState)
    (hs : s.state = .closed) :
    recordFailure cfg now false s =
      (if cfg.circuit_failure_threshold ≤
          ((s.failures ++ [now]).filter
            (fun x => decide (now - (cfg.circuit_failure_window_ms : ℤ) < x))).length
      then ({ cleanOldFailures cfg now { s with failures := s.failures ++ [now] } with
                state := .open, opened_at := some now }, true)
      else (cleanOldFailures cfg now { s with failures := s.failures ++ [now] }, false)) := by
  obtain ⟨st, fs, oa, hos⟩ := s
  simp only [CircuitBreakerState.state] at hs
  subst hs
  by_cases h : cfg.circuit_failure_threshold ≤
      ((fs ++ [now]).filter
        (fun x => decide (now - (cfg.circuit_failure_window_ms : ℤ) < x))).length
  · rw [if_pos h]
    simp only [recordFailure]
    rw [if_neg (show ¬ (false = true) by simp)]
    rw [if_neg (show ¬ ((cleanOldFailures cfg now ⟨.closed, fs ++ [now], oa, hos⟩).state
          = .halfOpen) by simp [cleanOldFailures])]
    rw [if_pos (show (cleanOldFailures cfg now ⟨.closed, fs ++ [now], oa, hos⟩).state = .closed ∧
          cfg.circuit_failure_threshold ≤
            (cleanOldFailures cfg now ⟨.closed, fs ++ [now], oa, hos⟩).failures.length
        from ⟨rfl, h⟩)]
  · rw [if_neg h]
    simp only [recordFailure]
    rw [if_neg (show ¬ (false = true) by simp)]
    rw [if_neg (show ¬ ((cleanOldFailures cfg now ⟨.closed, fs ++ [now], oa, hos⟩).state
          = .halfOpen) by simp [cleanOldFailures])]
    rw [if_neg (show ¬ ((cleanOldFailures cfg now ⟨.closed, fs ++ [now], oa, hos⟩).state
            = .closed ∧
          cfg.circuit_failure_threshold ≤
            (cleanOldFailures cfg now ⟨.closed, fs ++ [now], oa, hos⟩).failures.length)
        from fun hc => h hc.2)]

lemma canExecute_closed_eq (cfg : NeverhangConfig) (now : ℤ) (s : CircuitBreakerState)
    (hs : s.state = .closed) :
    canExecute cfg now s = (cleanOldFailures cfg now s, true) := by
  obtain ⟨st, fs, oa, hos⟩ := s
  simp only [CircuitBreakerState.state] at hs
  subst hs
  rfl

lemma canExecute_halfOpen_eq (cfg : NeverhangConfig) (now : ℤ) (s : CircuitBreakerState)
    (hs : s.state = .halfOpen) :
    canExecute cfg now s = (cleanOldFailures cfg now s, true) := by
  obtain ⟨st, fs, oa, hos⟩ := s
  simp only [CircuitBreakerState.state] at hs
  subst hs
  rfl

lemma canExecute_open_none_eq (cfg : NeverhangConfig) (now : ℤ) (s : CircuitBreakerState)
    (hs : s.state = .open) (ht : s.opened_at = none) :
    canExecute cfg now s = (cleanOldFailures cfg now s, false) := by
  obtain ⟨st, fs, oa, hos⟩ := s
  simp only [CircuitBreakerState.state] at hs
  simp only [CircuitBreakerState.opened_at] at ht
  subst hs
  subst ht
  rfl

lemma canExecute_open_some_eq (cfg : NeverhangConfig) (now t0 : ℤ) (s : CircuitBreakerState)
    (hs : s.state = .open) (ht : s.opened_at = some t0) :
    canExecute cfg now s =
      if (cfg.circuit_open_duration_ms : ℤ) ≤ now - t0 then
        ({ cleanOldFailures cfg now s with state := .halfOpen, half_open_successes := 0 }, true)
      else
        (cleanOldFailures cfg now s, false) := by
  obtain ⟨st, fs, oa, hos⟩ := s
  simp only [CircuitBreakerState.state] at hs
  simp only [CircuitBreakerState.opened_at] at ht
  subst hs
  subst ht
  by_cases h : (cfg.circuit_open_duration_ms : ℤ) ≤ now - t0
  · rw [if_pos h]
    show (if (cfg.circuit_open_duration_ms : ℤ) ≤ now - t0 then _ else _) = _
    rw [if_pos h]
  · rw [if_neg h]
    show (if (cfg.circuit_open_duration_ms : ℤ) ≤ now - t0 then _ else _) = _
    rw [if_neg h]

lemma recordSuccess_not_halfOpen_eq (cfg : NeverhangConfig) (s : CircuitBreakerState)
    (hs : s.state ≠ .halfOpen) :
    recordSuccess cfg s = (s, false) := by
  obtain ⟨st, fs, oa, hos⟩ := s
  cases st
  · rfl
  · rfl
  · simp only [CircuitBreakerState.state] at hs
    exact absurd rfl hs

lemma recordSuccess_halfOpen_eq (cfg : NeverhangConfig) (s : CircuitBreakerState)
    (hs : s.state = .halfOpen) :
    recordSuccess cfg s =
      if cfg.circuit_recovery_threshold ≤ s.half_open_successes + 1 then
        ({ state := .closed, failures := [], opened_at := none,
           half_open_successes := s.half_open_successes + 1 }, true)
      else
        ({ s with half_open_successes := s.half_open_successes + 1 }, false) := by
  obtain ⟨st, fs, oa, hos⟩ := s
  simp only [CircuitBreakerState.state] at hs
  subst hs
  by_cases h : cfg.circuit_recovery_threshold ≤ hos + 1
  · rw [if_pos h]
    show (if cfg.circuit_recovery_threshold ≤ hos + 1 then _ else _) = _
    rw [if_pos h]
  · rw [if_neg h]
    show (if cfg.circuit_recovery_threshold ≤ hos + 1 then _ else _) = _
    rw [if_neg h]

end BreakerStepLemmas

section SpacedFailureLemmas

lemma applyFailures_spaced_stays_closed (cfg : NeverhangConfig)
    (hthr : 2 ≤ cfg.circuit_failure_threshold) :
    ∀ (ts : List ℤ) (s : CircuitBreakerState),
      ts.Chain' (fun a b => (cfg.circuit_failure_window_ms : ℤ) < b - a) →
      s.state = .closed →
      (∀ u ∈ ts.head?, ∀ x ∈ s.failures, x ≤ u - (cfg.circuit_failure_window_ms : ℤ)) →
      (applyFailures cfg ts s).state = .closed := by
  intro ts
  induction ts with
  | nil =>
    intro s _ hs _
    simpa [applyFailures] using hs
  | cons t rest ih =>
    intro s hchain hs hold
    obtain ⟨hhead, hrest⟩ := List.chain'_cons'.mp hchain
    have hnil : s.failures.filter
        (fun x => decide (t - (cfg.circuit_failure_window_ms : ℤ) < x)) = [] := by
      rw [List.filter_eq_nil_iff]
      intro a ha
      simp only [decide_eq_true_eq, not_lt]
      have := hold t rfl a ha
      omega
    have hlen : ((s.failures ++ [t]).filter
        (fun x => decide (t - (cfg.circuit_failure_window_ms : ℤ) < x))).length <
        cfg.circuit_failure_threshold := by
      rw [List.filter_append, hnil, List.nil_append]
      have h1 := List.length_filter_le
        (fun x => decide (t - (cfg.circuit_failure_window_ms : ℤ) < x)) [t]
      simp only [List.length_cons, List.length_nil] at h1
      omega
    have hstep : applyFailures cfg (t :: rest) s
        = applyFailures cfg rest (recordFailure cfg t false s).1 := rfl
    rw [hstep, recordFailure_closed_eq cfg t s hs, if_neg (by omega)]
    refine ih _ hrest hs ?_
    intro u hu x hx
    have hxmem : x ∈ (s.failures ++ [t]).filter
        (fun x => decide (t - (cfg.circuit_failure_window_ms : ℤ) < x)) := hx
    rw [List.filter_append, hnil, List.nil_append] at hxmem
    have hxt : x ∈ ([t] : List ℤ) := (List.mem_filter.mp hxmem).1
    have hxeq : x = t := by simpa using hxt
    subst hxeq
    have := hhead u hu
    omega

end SpacedFailureLemmas

/-- C1: while `closed`, a `recordFailure` whose window-purged failure count
(current failure included) reaches `circuit_failure_threshold` opens the
breaker and sets `openedAt` to the failure's time; and failures each spaced
more than `circuit_failure_window_ms` apart (threshold at least 2) never open
the breaker. -/
theorem c1_closed_failure_window (cfg : NeverhangConfig) :
    (∀ (s : CircuitBreakerState) (now : ℤ), s.state = .closed →
      cfg.circuit_failure_threshold ≤
        ((s.failures ++ [now]).filter
          (fun x => decide (now - (cfg.circuit_failure_window_ms : ℤ) < x))).length →
      (recordFailure cfg now false s).1.state = .open ∧
      (recordFailure cfg now false s).1.opened_at = some now) ∧
    (∀ ts : List ℤ, 2 ≤ cfg.circuit_failure_threshold →
      ts.Chain' (fun a b => (cfg.circuit_failure_window_ms : ℤ) < b - a) →
      (applyFailures cfg ts initState).state = .closed) := by
  constructor
  · intro s now hs hcount
    rw [recordFailure_closed_eq cfg now s hs, if_pos hcount]
    exact ⟨rfl, rfl⟩
  · intro ts hthr hchain
    exact applyFailures_spaced_stays_closed cfg hthr ts initState hchain rfl
      (by intro u _ x hx; simp [initState] at hx)

/-- C1 witness: with the default config (threshold 5, window 60000), a fifth
in-window failure at `t = 4` opens the breaker with `openedAt = 4`, while two
failures 70000 ms apart leave it closed. -/
theorem c1_closed_failure_window_witness :
    ((recordFailure DEFAULT_NEVERHANG_CONFIG 4 false
        ⟨.closed, [0, 1, 2, 3], none, 0⟩).1.state = .open ∧
      (recordFailure DEFAULT_NEVERHANG_CONFIG 4 false
        ⟨.closed, [0, 1, 2, 3], none, 0⟩).1.opened_at = some 4) ∧
    (applyFailures DEFAULT_NEVERHANG_CONFIG [0, 70000] initState).state = .closed := by
  have h1 := (c1_closed_failure_window DEFAULT_NEVERHANG_CONFIG).1
    ⟨.closed, [0, 1, 2, 3], none, 0⟩ 4 rfl (by decide)
  have h2 := (c1_closed_failure_window DEFAULT_NEVERHANG_CONFIG).2
    [0, 70000] (by decide) (List.Chain.cons (by decide) List.Chain.nil)
  exact ⟨h1, h2⟩

section HealthLemmas

lemma hm_recordSuccess_status (now lat : ℤ) (s : HealthState) :
    (HealthMonitor.recordSuccess now lat s).status =
      if s.status = .unhealthy then .degraded
      else if s.status = .degraded ∧ 2 ≤ s.consecutive_successes then .healthy
      else s.status := by
  obtain ⟨st, lc, ls, lf, lm, samp, cf, cs⟩ := s
  cases st <;>
    simp only [HealthMonitor.recordSuccess, HealthState.status,
      HealthState.consecutive_successes] <;>
    split_ifs <;> simp_all

lemma hm_recordSuccess_cs (now lat : ℤ) (s : HealthState) :
    (HealthMonitor.recordSuccess now lat s).consecutive_successes =
      s.consecutive_successes + 1 := by
  obtain ⟨st, lc, ls, lf, lm, samp, cf, cs⟩ := s
  simp only [HealthMonitor.recordSuccess]
  split_ifs <;> rfl

lemma hm_recordFailure_status (now : ℤ) (s : HealthState) :
    (HealthMonitor.recordFailure now s).status =
      if s.status = .healthy then .degraded
      else if s.status = .degraded ∧ 2 ≤ s.consecutive_failures then .unhealthy
      else s.status := by
  obtain ⟨st, lc, ls, lf, lm, samp, cf, cs⟩ := s
  cases st <;>
    simp only [HealthMonitor.recordFailure, HealthState.status,
      HealthState.consecutive_failures] <;>
    split_ifs <;> simp_all

lemma hm_recordFailure_cf (now : ℤ) (s : HealthState) :
    (HealthMonitor.recordFailure now s).consecutive_failures =
      s.consecutive_failures + 1 := by
  obtain ⟨st, lc, ls, lf, lm, samp, cf, cs⟩ := s
  simp only [HealthMonitor.recordFailure]
  split_ifs <;> rfl

end HealthLemmas

/-- C7: each probe outcome moves the health status by at most one hysteresis
step; `unhealthy` + 1 success gives `degraded`; `healthy` stays `healthy` on
success; `healthy` + 1 failure gives `degraded`; from `degraded` with the
relevant consecutive counter at 0, three consecutive successes give `healthy`
(the first two leave it `degraded`) and three consecutive failures give
`unhealthy` (the first two leave it `degraded`); the status never jumps
directly between `healthy` and `unhealthy`. -/
theorem c7_health_hysteresis :
    (∀ (s : HealthState) (o : HealthMonitor.ProbeOutcome),
      (statusRank (HealthMonitor.step s o).status - statusRank s.status).natAbs ≤ 1) ∧
    (∀ (s : HealthState) (now lat : ℤ), s.status = .unhealthy →
      (HealthMonitor.recordSuccess now lat s).status = .degraded) ∧
    (∀ (s : HealthState) (now lat : ℤ), s.status = .healthy →
      (HealthMonitor.recordSuccess now lat s).status = .healthy) ∧
    (∀ (s : HealthState) (now : ℤ), s.status = .healthy →
      (HealthMonitor.recordFailure now s).status = .degraded) ∧
    (∀ (s : HealthState) (n1 l1 n2 l2 n3 l3 : ℤ), s.status = .degraded →
      s.consecutive_successes = 0 →
      (HealthMonitor.recordSuccess n1 l1 s).status = .degraded ∧
      (HealthMonitor.recordSuccess n2 l2 (HealthMonitor.recordSuccess n1 l1 s)).status
        = .degraded ∧
      (HealthMonitor.recordSuccess n3 l3 (HealthMonitor.recordSuccess n2 l2
        (HealthMonitor.recordSuccess n1 l1 s))).status = .healthy) ∧
    (∀ (s : HealthState) (n1 n2 n3 : ℤ), s.status = .degraded →
      s.consecutive_failures = 0 →
      (HealthMonitor.recordFailure n1 s).status = .degraded ∧
      (HealthMonitor.recordFailure n2 (HealthMonitor.recordFailure n1 s)).status = .degraded ∧
      (HealthMonitor.recordFailure n3 (HealthMonitor.recordFailure n2
        (HealthMonitor.recordFailure n1 s))).status = .unhealthy) ∧
    (∀ (s : HealthState) (o : HealthMonitor.ProbeOutcome),
      (s.status = .healthy → (HealthMonitor.step s o).status ≠ .unhealthy) ∧
      (s.status = .unhealthy → (HealthMonitor.step s o).status ≠ .healthy)) := by
  have hstep : ∀ (s : HealthState) (o : HealthMonitor.ProbeOutcome),
      (statusRank (HealthMonitor.step s o).status - statusRank s.status).natAbs ≤ 1 := by
    intro s o
    cases o with
    | success now lat =>
      show (statusRank (HealthMonitor.recordSuccess now lat s).status
        - statusRank s.status).natAbs ≤ 1
      rw [hm_recordSuccess_status]
      split_ifs with h1 h2
      · rw [h1]; decide
      · rw [h2.1]; decide
      · simp
    | failure now =>
      show (statusRank (HealthMonitor.recordFailure now s).status
        - statusRank s.status).natAbs ≤ 1
      rw [hm_recordFailure_status]
      split_ifs with h1 h2
      · rw [h1]; decide
      · rw [h2.1]; decide
      · simp
  refine ⟨hstep, ?_, ?_, ?_, ?_, ?_, ?_⟩
  · intro s now lat h
    rw [hm_recordSuccess_status, if_pos h]
  · intro s now lat h
    rw [hm_recordSuccess_status, if_neg (by simp [h]), if_neg (by simp [h])]
    exact h
  · intro s now h
    rw [hm_recordFailure_status, if_pos h]
  · intro s n1 l1 n2 l2 n3 l3 hst hcs
    have h1s : (HealthMonitor.recordSuccess n1 l1 s).status = .degraded := by
      rw [hm_recordSuccess_status, if_neg (by simp [hst]),
        if_neg (by rintro ⟨-, h⟩; omega)]
      exact hst
    have h1c : (HealthMonitor.recordSuccess n1 l1 s).consecutive_successes = 1 := by
      rw [hm_recordSuccess_cs, hcs]
    have h2s : (HealthMonitor.recordSuccess n2 l2
        (HealthMonitor.recordSuccess n1 l1 s)).status = .degraded := by
      rw [hm_recordSuccess_status, if_neg (by simp [h1s]),
        if_neg (by rintro ⟨-, h⟩; omega)]
      exact h1s
    have h2c : (HealthMonitor.recordSuccess n2 l2
        (HealthMonitor.recordSuccess n1 l1 s)).consecutive_successes = 2 := by
      rw [hm_recordSuccess_cs, h1c]
    refine ⟨h1s, h2s, ?_⟩
    rw [hm_recordSuccess_status, if_neg (by simp [h2s]), if_pos ⟨h2s, by omega⟩]
  · intro s n1 n2 n3 hst hcf
    have h1s : (HealthMonitor.recordFailure n1 s).status = .degraded := by
      rw [hm_recordFailure_status, if_neg (by simp [hst]),
        if_neg (by rintro ⟨-, h⟩; omega)]
      exact hst
    have h1c : (HealthMonitor.recordFailure n1 s).consecutive_failures = 1 := by
      rw [hm_recordFailure_cf, hcf]
    have h2s : (HealthMonitor.recordFailure n2
        (HealthMonitor.recordFailure n1 s)).status = .degraded := by
      rw [hm_recordFailure_status, if_neg (by simp [h1s]),
        if_neg (by rintro ⟨-, h⟩; omega)]
      exact h1s
    have h2c : (HealthMonitor.recordFailure n2
        (HealthMonitor.recordFailure n1 s)).consecutive_failures = 2 := by
      rw [hm_recordFailure_cf, h1c]
    refine ⟨h1s, h2s, ?_⟩
    rw [hm_recordFailure_status, if_neg (by simp [h2s]), if_pos ⟨h2s, by omega⟩]
  · intro s o
    constructor
    · intro h
      have := hstep s o
      rw [h] at this
      intro hc
      rw [hc] at this
      simp [statusRank] at this
    · intro h
      have := hstep s o
      rw [h] at this
      intro hc
      rw [hc] at this
      simp [statusRank] at this

/-- C7 witness: from a fresh `degraded` state three successes reach `healthy`
only at the third step; from `healthy` one failure degrades; `healthy` stays
`healthy` on success; `unhealthy` recovers to `degraded` after one success. -/
theorem c7_health_hysteresis_witness :
    ((HealthMonitor.recordSuccess 1 5 ⟨.degraded, none, none, none, 0, [], 0, 0⟩).status
        = .degraded ∧
      (HealthMonitor.recordSuccess 2 5 (HealthMonitor.recordSuccess 1 5
        ⟨.degraded, none, none, none, 0, [], 0, 0⟩)).status = .degraded ∧
      (HealthMonitor.recordSuccess 3 5 (HealthMonitor.recordSuccess 2 5
        (HealthMonitor.recordSuccess 1 5
          ⟨.degraded, none, none, none, 0, [], 0, 0⟩))).status = .healthy) ∧
    (HealthMonitor.recordFailure 1 HealthMonitor.initState).status = .degraded ∧
    (HealthMonitor.recordSuccess 1 5 HealthMonitor.initState).status = .healthy ∧
    (HealthMonitor.recordSuccess 1 5
      ⟨.unhealthy, none, none, none, 0, [], 3, 0⟩).status = .degraded := by
  have h1 := c7_health_hysteresis.2.2.2.2.1
    ⟨.degraded, none, none, none, 0, [], 0, 0⟩ 1 5 2 5 3 5 rfl rfl
  have h2 := c7_health_hysteresis.2.2.2.1 HealthMonitor.initState 1 rfl
  have h3 := c7_health_hysteresis.2.2.1 HealthMonitor.initState 1 5 rfl
  have h4 := c7_health_hysteresis.2.1 ⟨.unhealthy, none, none, none, 0, [], 3, 0⟩ 1 5 rfl
  exact ⟨h1, h2, h3, h4⟩

/-- C8: `getLatencyP95` returns `0` on an empty sample window; on a window of
`n` samples (`1 ≤ n ≤ 10`) it returns the entry at index
`min (⌊0.95·n⌋) (n-1)` of any ascending reordering of the window
(nearest-rank); on `[10, 20, …, 100]` it returns `100`. -/
theorem c8_latency_p95 :
    (∀ s : HealthState, s.latency_samples = [] → HealthMonitor.getLatencyP95 s = 0) ∧
    (∀ (s : HealthState) (l : List ℤ), 1 ≤ s.latency_samples.length →
      s.latency_samples.length ≤ 10 →
      l.Perm s.latency_samples → l.Sorted (· ≤ ·) →
      HealthMonitor.getLatencyP95 s =
        l.getD (min (s.latency_samples.length * 95 / 100) (s.latency_samples.length - 1)) 0) ∧
    HealthMonitor.getLatencyP95
      { HealthMonitor.initState with
          latency_samples := [10, 20, 30, 40, 50, 60, 70, 80, 90, 100] } = 100 := by
  refine ⟨?_, ?_, ?_⟩
  · intro s h
    simp [HealthMonitor.getLatencyP95, h]
  · intro s l h1 h10 hperm hsorted
    have hne : ¬ (s.latency_samples.isEmpty = true) := by
      cases hs : s.latency_samples
      · rw [hs] at h1; simp at h1
      · simp
    have hbase : HealthMonitor.getLatencyP95 s =
        (List.insertionSort (· ≤ ·) s.latency_samples).getD
          (min ((List.insertionSort (· ≤ ·) s.latency_samples).length * 95 / 100)
            ((List.insertionSort (· ≤ ·) s.latency_samples).length - 1)) 0 := by
      rw [HealthMonitor.getLatencyP95, if_neg hne]
    have hsort_eq : List.insertionSort (· ≤ ·) s.latency_samples = l :=
      List.eq_of_perm_of_sorted ((List.perm_insertionSort _ _).trans hperm.symm)
        (List.sorted_insertionSort _ _) hsorted
    rw [hbase, hsort_eq, hperm.length_eq]
  · decide

/-- C8 witness: the ten-sample window `[10, 20, …, 100]` yields the sorted
entry at index `min 9 9`, i.e. `100`. -/
theorem c8_latency_p95_witness :
    HealthMonitor.getLatencyP95
      { HealthMonitor.initState with
          latency_samples := [10, 20, 30, 40, 50, 60, 70, 80, 90, 100] } =
      ([10, 20, 30, 40, 50, 60, 70, 80, 90, 100] : List ℤ).getD
        (min (10 * 95 / 100) (10 - 1)) 0 := by
  exact c8_latency_p95.2.1
    { HealthMonitor.initState with
        latency_samples := [10, 20, 30, 40, 50, 60, 70, 80, 90, 100] }
    [10, 20, 30, 40, 50, 60, 70, 80, 90, 100]
    (by decide) (by decide) (List.Perm.refl _) (by decide)

/-- C9: the manager's `recordSuccess` and `recordFailure` leave the
`HealthState` (all of its fields) completely unchanged; they bump the call
counters, and only the circuit state and the store are otherwise updated. -/
theorem c9_manager_record_frame (cfg : NeverhangConfig) (m : ManagerState)
    (toolName : String) (durationMs : ℤ) (errorType : Option String) (now : ℤ) :
    (NeverhangManager.recordSuccess cfg toolName durationMs m).health = m.health ∧
    (NeverhangManager.recordSuccess cfg toolName durationMs m).total_calls
      = m.total_calls + 1 ∧
    (NeverhangManager.recordSuccess cfg toolName durationMs m).successful_calls
      = m.successful_calls + 1 ∧
    (NeverhangManager.recordFailure cfg toolName durationMs errorType now m).health
      = m.health ∧
    (NeverhangManager.recordFailure cfg toolName durationMs errorType now m).total_calls
      = m.total_calls + 1 ∧
    (NeverhangManager.recordFailure cfg toolName durationMs errorType now m).successful_calls
      = m.successful_calls :=
  ⟨rfl, rfl, rfl, rfl, rfl, rfl⟩

section RecoveryLemmas

lemma applySuccesses_stays_halfOpen (cfg : NeverhangConfig) :
    ∀ (n : ℕ) (s : CircuitBreakerState), s.state = .halfOpen →
      s.half_open_successes + n < cfg.circuit_recovery_threshold →
      applySuccesses cfg n s =
        { s with half_open_successes := s.half_open_successes + n } := by
  intro n
  induction n with
  | zero =>
    intro s _ _
    simp [applySuccesses]
  | succ n ih =>
    intro s hs hlt
    rw [applySuccesses, ih s hs (by omega)]
    unfold recordSuccess
    rw [if_pos (show ({ s with half_open_successes := s.half_open_successes + n } :
          CircuitBreakerState).state = .halfOpen from hs)]
    rw [if_neg (show ¬ (cfg.circuit_recovery_threshold ≤ s.half_open_successes + n + 1) by
          omega)]
    rfl

lemma applySuccesses_closes (cfg : NeverhangConfig) :
    ∀ (n : ℕ) (s : CircuitBreakerState), s.state = .halfOpen → 1 ≤ n →
      s.half_open_successes + n = cfg.circuit_recovery_threshold →
      applySuccesses cfg n s =
        { state := .closed, failures := [], opened_at := none,
          half_open_successes := cfg.circuit_recovery_threshold } := by
  intro n
  cases n with
  | zero =>
    intro _ _ h _
    omega
  | succ n =>
    intro s hs _ heq
    rw [applySuccesses, applySuccesses_stays_halfOpen cfg n s hs (by omega)]
    unfold recordSuccess
    rw [if_pos (show ({ s with half_open_successes := s.half_open_successes + n } :
          CircuitBreakerState).state = .halfOpen from hs)]
    rw [if_pos (show cfg.circuit_recovery_threshold ≤ s.half_open_successes + n + 1 by omega)]
    have h : s.half_open_successes + n + 1 = cfg.circuit_recovery_threshold := by omega
    rw [h]

end RecoveryLemmas

/-- C3: in `half-open`, a single `recordFailure` reopens the breaker with
`openedAt` reset to the failure's time; starting from `half-open` with the
success count at `0`, `circuit_recovery_threshold` consecutive `recordSuccess`
calls (and no fewer) close the breaker, clearing the failure history and
`openedAt`. -/
theorem c3_half_open_transitions (cfg : NeverhangConfig) :
    (∀ (s : CircuitBreakerState) (now : ℤ), s.state = .halfOpen →
      (recordFailure cfg now false s).1.state = .open ∧
      (recordFailure cfg now false s).1.opened_at = some now) ∧
    (∀ s : CircuitBreakerState, s.state = .halfOpen → s.half_open_successes = 0 →
      1 ≤ cfg.circuit_recovery_threshold →
      (∀ k : ℕ, k < cfg.circuit_recovery_threshold →
        (applySuccesses cfg k s).state = .halfOpen) ∧
      (applySuccesses cfg cfg.circuit_recovery_threshold s).state = .closed ∧
      (applySuccesses cfg cfg.circuit_recovery_threshold s).failures = [] ∧
      (applySuccesses cfg cfg.circuit_recovery_threshold s).opened_at = none) := by
  constructor
  · intro s now hs
    obtain ⟨st, fs, oa, hos⟩ := s
    simp only [CircuitBreakerState.state] at hs
    subst hs
    exact ⟨rfl, rfl⟩
  · intro s hs h0 h1
    refine ⟨?_, ?_⟩
    · intro k hk
      rw [applySuccesses_stays_halfOpen cfg k s hs (by omega)]
      exact hs
    · rw [applySuccesses_closes cfg cfg.circuit_recovery_threshold s hs h1 (by omega)]
      exact ⟨rfl, rfl, rfl⟩

/-- C3 witness: with the default config (recovery threshold 2), from a
half-open breaker one failure at `t = 10` reopens with `openedAt = 10`, and
two successes close the breaker clearing the history. -/
theorem c3_half_open_transitions_witness :
    ((recordFailure DEFAULT_NEVERHANG_CONFIG 10 false ⟨.halfOpen, [5], some 0, 0⟩).1.state
        = .open ∧
      (recordFailure DEFAULT_NEVERHANG_CONFIG 10 false ⟨.halfOpen, [5], some 0, 0⟩).1.opened_at
        = some 10) ∧
    ((applySuccesses DEFAULT_NEVERHANG_CONFIG 1 ⟨.halfOpen, [5], some 0, 0⟩).state
        = .halfOpen ∧
      (applySuccesses DEFAULT_NEVERHANG_CONFIG 2 ⟨.halfOpen, [5], some 0, 0⟩).state
        = .closed ∧
      (applySuccesses DEFAULT_NEVERHANG_CONFIG 2 ⟨.halfOpen, [5], some 0, 0⟩).failures = []) := by
  have h1 := (c3_half_open_transitions DEFAULT_NEVERHANG_CONFIG).1
    ⟨.halfOpen, [5], some 0, 0⟩ 10 rfl
  have h2 := (c3_half_open_transitions DEFAULT_NEVERHANG_CONFIG).2
    ⟨.halfOpen, [5], some 0, 0⟩ rfl rfl (by decide)
  exact ⟨⟨h1.1, h1.2⟩, h2.1 1 (by decide), h2.2.1, h2.2.2.1⟩

/-- C4 counterexample: with the default config, five failures at
`t = 0 … 4` open the breaker; a sixth failure at `t = 5` while `open`
extends the failure bookkeeping to six timestamps, and the `open → half-open`
transition at `t = 30004` retains all of them — the transition out of `open`
does not clear `failureTimestamps` as the claim states. -/
theorem c4_counterexample :
    (applyFailures DEFAULT_NEVERHANG_CONFIG [0, 1, 2, 3, 4] initState).state = .open ∧
    ((recordFailure DEFAULT_NEVERHANG_CONFIG 5 false
        (applyFailures DEFAULT_NEVERHANG_CONFIG [0, 1, 2, 3, 4] initState)).1.failures
      = [0, 1, 2, 3, 4, 5]) ∧
    ((canExecute DEFAULT_NEVERHANG_CONFIG 30004
        (recordFailure DEFAULT_NEVERHANG_CONFIG 5 false
          (applyFailures DEFAULT_NEVERHANG_CONFIG [0, 1, 2, 3, 4] initState)).1).1.state
      = .halfOpen) ∧
    ((canExecute DEFAULT_NEVERHANG_CONFIG 30004
        (recordFailure DEFAULT_NEVERHANG_CONFIG 5 false
          (applyFailures DEFAULT_NEVERHANG_CONFIG [0, 1, 2, 3, 4] initState)).1).1.failures
      ≠ []) := by
  decide

/-- C4 (amended): every transition into `open` sets `openedAt` to the failure
time, and only `recordFailure` can enter `open`; a failure recorded while
`open` appends its timestamp to the window-purged failure list but leaves the
state, `openedAt` and `halfOpenSuccesses` unchanged and does not persist; the
`open → half-open` transition of `canExecute` retains the window-purged
failure list (it does not clear it), and the list is cleared on the
`half-open → closed` transition. -/
theorem c4_open_state_invariants (cfg : NeverhangConfig) :
    (∀ (s : CircuitBreakerState) (now : ℤ), s.state ≠ .open →
      (recordFailure cfg now false s).1.state = .open →
      (recordFailure cfg now false s).1.opened_at = some now) ∧
    (∀ (s : CircuitBreakerState) (now : ℤ), s.state ≠ .open →
      (canExecute cfg now s).1.state ≠ .open ∧
      (recordSuccess cfg s).1.state ≠ .open) ∧
    (∀ (s : CircuitBreakerState) (now : ℤ), s.state = .open →
      (recordFailure cfg now false s).1.state = .open ∧
      (recordFailure cfg now false s).1.opened_at = s.opened_at ∧
      (recordFailure cfg now false s).1.half_open_successes = s.half_open_successes ∧
      (recordFailure cfg now false s).1.failures =
        (s.failures ++ [now]).filter
          (fun x => decide (now - (cfg.circuit_failure_window_ms : ℤ) < x)) ∧
      (recordFailure cfg now false s).2 = false) ∧
    (∀ (s : CircuitBreakerState) (now : ℤ), s.state = .open →
      (canExecute cfg now s).1.failures =
        s.failures.filter (fun x => decide (now - (cfg.circuit_failure_window_ms : ℤ) < x))) ∧
    (∀ s : CircuitBreakerState, s.state = .halfOpen →
      (recordSuccess cfg s).1.state = .closed →
      (recordSuccess cfg s).1.failures = []) := by
  refine ⟨?_, ?_, ?_, ?_, ?_⟩
  · intro s now hnot hopen
    cases hst : s.state with
    | closed =>
      rw [recordFailure_closed_eq cfg now s hst]
      by_cases h : cfg.circuit_failure_threshold ≤
          ((s.failures ++ [now]).filter
            (fun x => decide (now - (cfg.circuit_failure_window_ms : ℤ) < x))).length
      · rw [if_pos h]
      · rw [recordFailure_closed_eq cfg now s hst, if_neg h] at hopen
        exact absurd hopen (by simp [cleanOldFailures, hst])
    | «open» => exact absurd hst hnot
    | halfOpen =>
      rw [recordFailure_halfOpen_eq cfg now s hst]
  · intro s now hnot
    constructor
    · cases hst : s.state with
      | closed => rw [canExecute_closed_eq cfg now s hst]; simp [cleanOldFailures, hst]
      | «open» => exact absurd hst hnot
      | halfOpen => rw [canExecute_halfOpen_eq cfg now s hst]; simp [cleanOldFailures, hst]
    · by_cases hst : s.state = .halfOpen
      · rw [recordSuccess_halfOpen_eq cfg s hst]
        by_cases h : cfg.circuit_recovery_threshold ≤ s.half_open_successes + 1
        · rw [if_pos h]; simp
        · rw [if_neg h]; simp [hst]
      · rw [recordSuccess_not_halfOpen_eq cfg s hst]
        cases hst2 : s.state with
        | closed => simp
        | «open» => exact absurd hst2 hnot
        | halfOpen => exact absurd hst2 hst
  · intro s now hst
    rw [recordFailure_open_eq cfg now s hst]
    exact ⟨hst, rfl, rfl, rfl, rfl⟩
  · intro s now hst
    cases ht : s.opened_at with
    | none => rw [canExecute_open_none_eq cfg now s hst ht]; rfl
    | some t0 =>
      rw [canExecute_open_some_eq cfg now t0 s hst ht]
      by_cases h : (cfg.circuit_open_duration_ms : ℤ) ≤ now - t0
      · rw [if_pos h]; rfl
      · rw [if_neg h]; rfl
  · intro s hst hclosed
    rw [recordSuccess_halfOpen_eq cfg s hst]
    by_cases h : cfg.circuit_recovery_threshold ≤ s.half_open_successes + 1
    · rw [if_pos h]
    · rw [recordSuccess_halfOpen_eq cfg s hst, if_neg h] at hclosed
      exact absurd hclosed (by simp [hst])

/-- C4 witness: with the default config, a failure at `t = 7` from a closed
breaker at the threshold enters `open` with `openedAt = 7`; a failure at
`t = 8` while `open` keeps the state, `openedAt` and success count unchanged
without persisting; and the surviving failure list after the `open →
half-open` transition is the window-purged one. -/
theorem c4_open_state_invariants_witness :
    ((recordFailure DEFAULT_NEVERHANG_CONFIG 7 false
        ⟨.closed, [0, 1, 2, 3], none, 0⟩).1.opened_at = some 7) ∧
    ((recordFailure DEFAULT_NEVERHANG_CONFIG 8 false
        ⟨.open, [0, 1], some 7, 0⟩).1.state = .open ∧
      (recordFailure DEFAULT_NEVERHANG_CONFIG 8 false
        ⟨.open, [0, 1], some 7, 0⟩).1.opened_at = some 7 ∧
      (recordFailure DEFAULT_NEVERHANG_CONFIG 8 false
        ⟨.open, [0, 1], some 7, 0⟩).2 = false) ∧
    ((canExecute DEFAULT_NEVERHANG_CONFIG 70000
        ⟨.open, [0, 1, 65000], some 7, 0⟩).1.failures
      = [0, 1, 65000].filter
          (fun x => decide ((70000 : ℤ) -
            (DEFAULT_NEVERHANG_CONFIG.circuit_failure_window_ms : ℤ) < x))) := by
  have h1 := (c4_open_state_invariants DEFAULT_NEVERHANG_CONFIG).1
    ⟨.closed, [0, 1, 2, 3], none, 0⟩ 7 (by decide) (by decide)
  have h3 := (c4_open_state_invariants DEFAULT_NEVERHANG_CONFIG).2.2.1
    ⟨.open, [0, 1], some 7, 0⟩ 8 rfl
  have h4 := (c4_open_state_invariants DEFAULT_NEVERHANG_CONFIG).2.2.2.1
    ⟨.open, [0, 1, 65000], some 7, 0⟩ 70000 rfl
  exact ⟨h1, ⟨h3.1, h3.2.1, h3.2.2.2.2⟩, h4⟩

section TimeoutLemmas

lemma healthMultiplier_antitone {h1 h2 : HealthStatus}
    (h : healthSeverity h1 ≤ healthSeverity h2) :
    AdaptiveTimeout.healthMultiplier h2 ≤ AdaptiveTimeout.healthMultiplier h1 := by
  cases h1 <;> cases h2 <;>
    first
      | exact le_rfl
      | exact absurd h (by decide)
      | norm_num [AdaptiveTimeout.healthMultiplier]

lemma complexityMultiplier_mono {c1 c2 : OperationComplexity}
    (h : complexityEscalation c1 ≤ complexityEscalation c2) :
    AdaptiveTimeout.complexityMultiplier c1 ≤ AdaptiveTimeout.complexityMultiplier c2 := by
  cases c1 <;> cases c2 <;>
    first
      | exact le_rfl
      | exact absurd h (by decide)
      | norm_num [AdaptiveTimeout.complexityMultiplier]

lemma healthMultiplier_nonneg (h : HealthStatus) :
    0 ≤ AdaptiveTimeout.healthMultiplier h := by
  cases h <;> norm_num [AdaptiveTimeout.healthMultiplier]

lemma complexityMultiplier_nonneg (c : OperationComplexity) :
    0 ≤ AdaptiveTimeout.complexityMultiplier c := by
  cases c <;> norm_num [AdaptiveTimeout.complexityMultiplier]

lemma jsRound_mono {x y : ℚ} (h : x ≤ y) :
    AdaptiveTimeout.jsRound x ≤ AdaptiveTimeout.jsRound y :=
  Int.floor_le_floor (by linarith)

lemma clampRound_mono (cfg : NeverhangConfig) {x y : ℚ} (h : x ≤ y) :
    (AdaptiveTimeout.jsRound
        (min (max x (cfg.min_timeout_ms : ℚ)) (cfg.max_timeout_ms : ℚ)) : ℚ) ≤
      (AdaptiveTimeout.jsRound
        (min (max y (cfg.min_timeout_ms : ℚ)) (cfg.max_timeout_ms : ℚ)) : ℚ) := by
  have h1 : min (max x (cfg.min_timeout_ms : ℚ)) (cfg.max_timeout_ms : ℚ) ≤
      min (max y (cfg.min_timeout_ms : ℚ)) (cfg.max_timeout_ms : ℚ) :=
    min_le_min (max_le_max h le_rfl) le_rfl
  exact_mod_cast jsRound_mono h1

lemma jsRound_clamp_bounds (cfg : NeverhangConfig)
    (hmm : cfg.min_timeout_ms ≤ cfg.max_timeout_ms) (x : ℚ) :
    (cfg.min_timeout_ms : ℚ) ≤
      (AdaptiveTimeout.jsRound
        (min (max x (cfg.min_timeout_ms : ℚ)) (cfg.max_timeout_ms : ℚ)) : ℚ) ∧
    (AdaptiveTimeout.jsRound
        (min (max x (cfg.min_timeout_ms : ℚ)) (cfg.max_timeout_ms : ℚ)) : ℚ) ≤
      (cfg.max_timeout_ms : ℚ) := by
  have hmmq : (cfg.min_timeout_ms : ℚ) ≤ (cfg.max_timeout_ms : ℚ) := by exact_mod_cast hmm
  have hlo : (cfg.min_timeout_ms : ℚ) ≤
      min (max x (cfg.min_timeout_ms : ℚ)) (cfg.max_timeout_ms : ℚ) :=
    le_min (le_max_right _ _) hmmq
  have hhi : min (max x (cfg.min_timeout_ms : ℚ)) (cfg.max_timeout_ms : ℚ) ≤
      (cfg.max_timeout_ms : ℚ) := min_le_right _ _
  constructor
  · have hz : (cfg.min_timeout_ms : ℤ) ≤ AdaptiveTimeout.jsRound
        (min (max x (cfg.min_timeout_ms : ℚ)) (cfg.max_timeout_ms : ℚ)) := by
      rw [AdaptiveTimeout.jsRound]
      apply Int.le_floor.mpr
      push_cast
      linarith
    exact_mod_cast hz
  · have hz : AdaptiveTimeout.jsRound
        (min (max x (cfg.min_timeout_ms : ℚ)) (cfg.max_timeout_ms : ℚ)) ≤
        (cfg.max_timeout_ms : ℤ) := by
      rw [AdaptiveTimeout.jsRound]
      have hfl : (min (max x (cfg.min_timeout_ms : ℚ)) (cfg.max_timeout_ms : ℚ)) + 1 / 2 ≤
          ((cfg.max_timeout_ms : ℤ) : ℚ) + 1 / 2 := by push_cast; linarith
      calc ⌊(min (max x (cfg.min_timeout_ms : ℚ)) (cfg.max_timeout_ms : ℚ)) + 1 / 2⌋
          ≤ ⌊((cfg.max_timeout_ms : ℤ) : ℚ) + 1 / 2⌋ := Int.floor_le_floor hfl
        _ = (cfg.max_timeout_ms : ℤ) + ⌊(1 / 2 : ℚ)⌋ := Int.floor_int_add _ _
        _ = (cfg.max_timeout_ms : ℤ) := by norm_num
    exact_mod_cast hz

lemma jsRound_intCast (n : ℤ) : AdaptiveTimeout.jsRound ((n : ℤ) : ℚ) = n := by
  rw [AdaptiveTimeout.jsRound, Int.floor_eq_iff]
  constructor
  · linarith
  · linarith

lemma getTimeout_eval_int (cfg : NeverhangConfig) (hA : cfg.adaptive_timeout = true)
    (tool : String) (h : HealthStatus) (v w : ℤ)
    (hv : (cfg.base_timeout_ms : ℚ) *
      (AdaptiveTimeout.complexityMultiplier (classifyOperation tool) *
       AdaptiveTimeout.healthMultiplier h) = (v : ℚ))
    (hw : min (max ((v : ℤ) : ℚ) (cfg.min_timeout_ms : ℚ)) (cfg.max_timeout_ms : ℚ)
      = ((w : ℤ) : ℚ)) :
    AdaptiveTimeout.getTimeout cfg tool h none = (w : ℚ) := by
  simp only [AdaptiveTimeout.getTimeout]
  rw [if_neg (by simp [hA]), hv, hw, jsRound_intCast]

end TimeoutLemmas

/-- C6 counterexample: along the claim's declared escalation order
`simple, interface, firewall, config, dangerous` the timeout is NOT
non-decreasing — with the default config an interface operation gets 20000 ms
while the firewall operation that follows it in that order gets 15000 ms; and
with the adaptive calculator disabled, a base timeout below the minimum is
returned unclamped, violating the `[min, max]` bound. -/
theorem c6_counterexample :
    AdaptiveTimeout.getTimeout DEFAULT_NEVERHANG_CONFIG "interface_restart" .healthy none
      = 20000 ∧
    AdaptiveTimeout.getTimeout DEFAULT_NEVERHANG_CONFIG "firewall_add" .healthy none
      = 15000 ∧
    AdaptiveTimeout.getTimeout DEFAULT_NEVERHANG_CONFIG "firewall_add" .healthy none <
      AdaptiveTimeout.getTimeout DEFAULT_NEVERHANG_CONFIG "interface_restart" .healthy none ∧
    AdaptiveTimeout.getTimeout lowBaseNoAdaptiveConfig "pf_health" .healthy none = 1000 ∧
    (AdaptiveTimeout.getTimeout lowBaseNoAdaptiveConfig "pf_health" .healthy none <
      (lowBaseNoAdaptiveConfig.min_timeout_ms : ℚ)) := by
  have e1 : AdaptiveTimeout.getTimeout DEFAULT_NEVERHANG_CONFIG "interface_restart"
      .healthy none = ((20000 : ℤ) : ℚ) :=
    getTimeout_eval_int DEFAULT_NEVERHANG_CONFIG rfl _ _ 20000 20000
      (by norm_num [show classifyOperation "interface_restart" = .interface from rfl,
        AdaptiveTimeout.complexityMultiplier, AdaptiveTimeout.healthMultiplier,
        DEFAULT_NEVERHANG_CONFIG])
      (by norm_num [DEFAULT_NEVERHANG_CONFIG, min_def, max_def])
  have e2 : AdaptiveTimeout.getTimeout DEFAULT_NEVERHANG_CONFIG "firewall_add"
      .healthy none = ((15000 : ℤ) : ℚ) :=
    getTimeout_eval_int DEFAULT_NEVERHANG_CONFIG rfl _ _ 15000 15000
      (by norm_num [show classifyOperation "firewall_add" = .firewall from rfl,
        AdaptiveTimeout.complexityMultiplier, AdaptiveTimeout.healthMultiplier,
        DEFAULT_NEVERHANG_CONFIG])
      (by norm_num [DEFAULT_NEVERHANG_CONFIG, min_def, max_def])
  have e3 : AdaptiveTimeout.getTimeout lowBaseNoAdaptiveConfig "pf_health" .healthy none
      = 1000 := by
    simp only [AdaptiveTimeout.getTimeout]
    rw [if_pos (show lowBaseNoAdaptiveConfig.adaptive_timeout = false from rfl)]
    norm_num [lowBaseNoAdaptiveConfig, DEFAULT_NEVERHANG_CONFIG]
  refine ⟨by rw [e1]; norm_num, by rw [e2]; norm_num, ?_, e3, ?_⟩
  · rw [e1, e2]; norm_num
  · rw [e3]; norm_num [lowBaseNoAdaptiveConfig, DEFAULT_NEVERHANG_CONFIG]

theorem c6_adaptive_timeout (cfg : NeverhangConfig) (toolName t1 t2 : String)
    (h1 h2 : HealthStatus) (healthStatus : HealthStatus) (userOverride : Option ℤ) :
    (healthSeverity h1 ≤ healthSeverity h2 →
      AdaptiveTimeout.getTimeout cfg toolName h2 none ≤
        AdaptiveTimeout.getTimeout cfg toolName h1 none) ∧
    (complexityEscalation (classifyOperation t1) ≤
        complexityEscalation (classifyOperation t2) →
      AdaptiveTimeout.getTimeout cfg t1 healthStatus none ≤
        AdaptiveTimeout.getTimeout cfg t2 healthStatus none) ∧
    (cfg.min_timeout_ms ≤ cfg.max_timeout_ms →
      (userOverride.isSome = true ∨ cfg.adaptive_timeout = true) →
      (cfg.min_timeout_ms : ℚ) ≤
          AdaptiveTimeout.getTimeout cfg toolName healthStatus userOverride ∧
        AdaptiveTimeout.getTimeout cfg toolName healthStatus userOverride ≤
          (cfg.max_timeout_ms : ℚ)) := by
  refine ⟨?_, ?_, ?_⟩
  · intro hsev
    by_cases hA : cfg.adaptive_timeout = false
    · simp only [AdaptiveTimeout.getTimeout]
      rw [if_pos hA, if_pos hA]
    · simp only [AdaptiveTimeout.getTimeout]
      rw [if_neg hA, if_neg hA]
      apply clampRound_mono
      have hm := healthMultiplier_antitone hsev
      have hc := complexityMultiplier_nonneg (classifyOperation toolName)
      have hb : (0 : ℚ) ≤ (cfg.base_timeout_ms : ℚ) := by positivity
      exact mul_le_mul_of_nonneg_left (mul_le_mul_of_nonneg_left hm hc) hb
  · intro hesc
    by_cases hA : cfg.adaptive_timeout = false
    · simp only [AdaptiveTimeout.getTimeout]
      rw [if_pos hA, if_pos hA]
    · simp only [AdaptiveTimeout.getTimeout]
      rw [if_neg hA, if_neg hA]
      apply clampRound_mono
      have hm := complexityMultiplier_mono hesc
      have hh := healthMultiplier_nonneg healthStatus
      have hb : (0 : ℚ) ≤ (cfg.base_timeout_ms : ℚ) := by positivity
      exact mul_le_mul_of_nonneg_left (mul_le_mul_of_nonneg_right hm hh) hb
  · intro hmm hdisj
    have hmmq : (cfg.min_timeout_ms : ℚ) ≤ (cfg.max_timeout_ms : ℚ) := by exact_mod_cast hmm
    cases userOverride with
    | some o =>
      constructor
      · exact le_min (le_max_right _ _) hmmq
      · exact min_le_right _ _
    | none =>
      have hA : cfg.adaptive_timeout = true := by
        rcases hdisj with h | h
        · simp at h
        · exact h
      simp only [AdaptiveTimeout.getTimeout]
      rw [if_neg (show ¬ (cfg.adaptive_timeout = false) by simp [hA])]
      exact jsRound_clamp_bounds cfg hmm _

theorem c6_adaptive_timeout_witness :
    (AdaptiveTimeout.getTimeout DEFAULT_NEVERHANG_CONFIG "pf_health" .unhealthy none ≤
      AdaptiveTimeout.getTimeout DEFAULT_NEVERHANG_CONFIG "pf_health" .healthy none) ∧
    (AdaptiveTimeout.getTimeout DEFAULT_NEVERHANG_CONFIG "firewall_add" .healthy none ≤
      AdaptiveTimeout.getTimeout DEFAULT_NEVERHANG_CONFIG "interface_restart" .healthy none) ∧
    ((DEFAULT_NEVERHANG_CONFIG.min_timeout_ms : ℚ) ≤
        AdaptiveTimeout.getTimeout DEFAULT_NEVERHANG_CONFIG "pf_reboot" .healthy none ∧
      AdaptiveTimeout.getTimeout DEFAULT_NEVERHANG_CONFIG "pf_reboot" .healthy none ≤
        (DEFAULT_NEVERHANG_CONFIG.max_timeout_ms : ℚ)) := by
  have h1 := (c6_adaptive_timeout DEFAULT_NEVERHANG_CONFIG "pf_health" "x" "x"
    .healthy .unhealthy .healthy none).1 (by decide)
  have h2 := (c6_adaptive_timeout DEFAULT_NEVERHANG_CONFIG "x" "firewall_add"
    "interface_restart" .healthy .healthy .healthy none).2.1 (by decide)
  have h3 := (c6_adaptive_timeout DEFAULT_NEVERHANG_CONFIG "pf_reboot" "x" "x"
    .healthy .healthy .healthy none).2.2 (by decide) (Or.inr rfl)
  exact ⟨h1, h2, h3⟩

section RoundTripLemmas

lemma nextCallEquiv_open (cfg : NeverhangConfig) (a b : CircuitBreakerState)
    (ha : a.state = .open) (hb : b.state = .open)
    (hoa : a.opened_at = b.opened_at)
    (hhos : a.half_open_successes = b.half_open_successes) :
    NextCallEquiv cfg a b := by
  intro T
  have hsuc : (recordSuccess cfg a = (a, false)) ∧ (recordSuccess cfg b = (b, false)) :=
    ⟨recordSuccess_not_halfOpen_eq cfg a (by simp [ha]),
     recordSuccess_not_halfOpen_eq cfg b (by simp [hb])⟩
  have hfail₁ := recordFailure_open_eq cfg T a ha
  have hfail₂ := recordFailure_open_eq cfg T b hb
  refine ⟨?_, ?_, ?_, ?_, ?_, ?_, ?_⟩
  · cases hopt : a.opened_at with
    | none =>
      rw [canExecute_open_none_eq cfg T a ha hopt,
        canExecute_open_none_eq cfg T b hb (hoa ▸ hopt)]
    | some t0 =>
      rw [canExecute_open_some_eq cfg T t0 a ha hopt,
        canExecute_open_some_eq cfg T t0 b hb (hoa ▸ hopt)]
      by_cases h : (cfg.circuit_open_duration_ms : ℤ) ≤ T - t0
      · rw [if_pos h, if_pos h]
      · rw [if_neg h, if_neg h]
  · cases hopt : a.opened_at with
    | none =>
      rw [canExecute_open_none_eq cfg T a ha hopt,
        canExecute_open_none_eq cfg T b hb (hoa ▸ hopt)]
      exact ha.trans hb.symm
    | some t0 =>
      rw [canExecute_open_some_eq cfg T t0 a ha hopt,
        canExecute_open_some_eq cfg T t0 b hb (hoa ▸ hopt)]
      by_cases h : (cfg.circuit_open_duration_ms : ℤ) ≤ T - t0
      · rw [if_pos h, if_pos h]
      · rw [if_neg h, if_neg h]
        exact ha.trans hb.symm
  · cases hopt : a.opened_at with
    | none =>
      rw [canExecute_open_none_eq cfg T a ha hopt,
        canExecute_open_none_eq cfg T b hb (hoa ▸ hopt)]
      exact hhos
    | some t0 =>
      rw [canExecute_open_some_eq cfg T t0 a ha hopt,
        canExecute_open_some_eq cfg T t0 b hb (hoa ▸ hopt)]
      by_cases h : (cfg.circuit_open_duration_ms : ℤ) ≤ T - t0
      · rw [if_pos h, if_pos h]
      · rw [if_neg h, if_neg h]
        exact hhos
  · rw [hsuc.1, hsuc.2]
    exact ha.trans hb.symm
  · rw [hsuc.1, hsuc.2]
  · rw [hfail₁, hfail₂]
    exact ha.trans hb.symm
  · rw [hfail₁, hfail₂]

lemma loadState_persistRecord_fields (s : CircuitBreakerState) :
    (loadState (persistRecord s)).state = s.state ∧
    (loadState (persistRecord s)).half_open_successes = s.half_open_successes := by
  obtain ⟨st, fs, oa, hos⟩ := s
  cases st <;> exact ⟨rfl, rfl⟩

lemma loadState_persistRecord_opened_at (s : CircuitBreakerState) (t : ℤ)
    (ht : s.opened_at = some t) (hnz : t ≠ 0) :
    (loadState (persistRecord s)).opened_at = s.opened_at := by
  obtain ⟨st, fs, oa, hos⟩ := s
  simp only [CircuitBreakerState.opened_at] at ht
  subst ht
  simp [loadState, persistRecord, hnz]

end RoundTripLemmas

/-- C5 counterexample: a half-open breaker hit by a failure at the epoch
`now = 0` persists (transition to `open` with `openedAt = 0`); the pre-restart
instance's `canExecute` at `T = 30000` returns `true` (elapsed ≥ the 30000 ms
open duration), but the reloaded instance — whose constructor treats the falsy
stored timestamp `0` as absent — returns `false` at the same time instead of
flipping to half-open.  The persisted-and-reloaded breaker does not respond
identically to the next incoming call, and being down longer than
`circuit_open_duration_ms` does not make its first `canExecute` flip to
`half_open`. -/
theorem c5_counterexample :
    ((recordFailure DEFAULT_NEVERHANG_CONFIG 0 false
        ⟨.halfOpen, [], some (-100), 0⟩).2 = true) ∧
    ((recordFailure DEFAULT_NEVERHANG_CONFIG 0 false
        ⟨.halfOpen, [], some (-100), 0⟩).1.state = .open) ∧
    ((recordFailure DEFAULT_NEVERHANG_CONFIG 0 false
        ⟨.halfOpen, [], some (-100), 0⟩).1.opened_at = some 0) ∧
    ((canExecute DEFAULT_NEVERHANG_CONFIG 30000
        (recordFailure DEFAULT_NEVERHANG_CONFIG 0 false
          ⟨.halfOpen, [], some (-100), 0⟩).1).2 = true) ∧
    ((canExecute DEFAULT_NEVERHANG_CONFIG 30000
        (loadState (loadCircuitState (saveCircuitState none
          (persistRecord (recordFailure DEFAULT_NEVERHANG_CONFIG 0 false
            ⟨.halfOpen, [], some (-100), 0⟩).1))))).2 = false) := by
  decide

/-- C5 (amended): a state persisted by the breaker at a transition, reloaded
through the store (`saveCircuitState` then `loadCircuitState` and the
constructor's rebuild), responds to the next incoming call exactly as the
pre-restart instance would at the same time, **provided the persisted
`openedAt` timestamp is nonzero** (the constructor's truthiness check drops a
stored `0`); the half-open→closed persist reloads bit-for-bit identical with
no side condition; and a record persisted as `open` with a nonzero `openedAt`
older than `circuit_open_duration_ms` flips to `half-open` and returns `true`
on the first `canExecute` after reload. -/
theorem c5_persist_roundtrip (cfg : NeverhangConfig) :
    (∀ (s : CircuitBreakerState) (st : Option PersistedCircuitState),
      (recordSuccess cfg s).2 = true →
      loadState (loadCircuitState (saveCircuitState st
        (persistRecord (recordSuccess cfg s).1))) = (recordSuccess cfg s).1) ∧
    (∀ (s : CircuitBreakerState) (now : ℤ) (st : Option PersistedCircuitState),
      (recordFailure cfg now false s).2 = true → now ≠ 0 →
      (recordFailure cfg now false s).1.state = .open ∧
      NextCallEquiv cfg (recordFailure cfg now false s).1
        (loadState (loadCircuitState (saveCircuitState st
          (persistRecord (recordFailure cfg now false s).1))))) ∧
    (∀ (r : PersistedCircuitState) (t0 T : ℤ), r.state = .open → r.opened_at = some t0 →
      t0 ≠ 0 → (cfg.circuit_open_duration_ms : ℤ) ≤ T - t0 →
      (canExecute cfg T (loadState r)).2 = true ∧
      (canExecute cfg T (loadState r)).1.state = .halfOpen) := by
  refine ⟨?_, ?_, ?_⟩
  · intro s st hflag
    by_cases hst : s.state = .halfOpen
    · rw [recordSuccess_halfOpen_eq cfg s hst] at hflag ⊢
      by_cases hth : cfg.circuit_recovery_threshold ≤ s.half_open_successes + 1
      · rw [if_pos hth] at hflag ⊢
        rfl
      · rw [if_neg hth] at hflag
        simp at hflag
    · rw [recordSuccess_not_halfOpen_eq cfg s hst] at hflag
      simp at hflag
  · intro s now st hflag hnz
    have hopen : (recordFailure cfg now false s).1.state = .open ∧
        (recordFailure cfg now false s).1.opened_at = some now := by
      cases hst : s.state with
      | closed =>
        rw [recordFailure_closed_eq cfg now s hst] at hflag ⊢
        by_cases hth : cfg.circuit_failure_threshold ≤
            ((s.failures ++ [now]).filter
              (fun x => decide (now - (cfg.circuit_failure_window_ms : ℤ) < x))).length
        · rw [if_pos hth]
          exact ⟨rfl, rfl⟩
        · rw [if_neg hth] at hflag
          simp at hflag
      | «open» =>
        rw [recordFailure_open_eq cfg now s hst] at hflag
        simp at hflag
      | halfOpen =>
        rw [recordFailure_halfOpen_eq cfg now s hst]
        exact ⟨rfl, rfl⟩
    have hfields := loadState_persistRecord_fields (recordFailure cfg now false s).1
    have hoa := loadState_persistRecord_opened_at (recordFailure cfg now false s).1
      now hopen.2 hnz
    refine ⟨hopen.1, ?_⟩
    exact nextCallEquiv_open cfg _ _ hopen.1 (hfields.1.trans hopen.1)
      hoa.symm hfields.2.symm
  · intro r t0 T hr ht hnz hel
    obtain ⟨rst, rc, rlast, roa, rrec⟩ := r
    simp only [PersistedCircuitState.state] at hr
    simp only [PersistedCircuitState.opened_at] at ht
    subst hr
    subst ht
    have hstate : (loadState ⟨.open, rc, rlast, some t0, rrec⟩).state = .open := rfl
    have hoa : (loadState ⟨.open, rc, rlast, some t0, rrec⟩).opened_at = some t0 := by
      simp [loadState, hnz]
    rw [canExecute_open_some_eq cfg T t0 _ hstate hoa, if_pos hel]
    exact ⟨rfl, rfl⟩

/-- C5 witness: a half-open breaker one success away from recovery persists at
the closing transition and reloads bit-for-bit identical; a breaker persisted
as `open` at `t = 7` and reloaded long after (`T = 1000000 >` the 30000 ms
open duration) immediately returns `true` and flips to `half-open`. -/
theorem c5_persist_roundtrip_witness :
    (loadState (loadCircuitState (saveCircuitState none
      (persistRecord (recordSuccess DEFAULT_NEVERHANG_CONFIG
        ⟨.halfOpen, [5], some 0, 1⟩).1)))
      = (recordSuccess DEFAULT_NEVERHANG_CONFIG ⟨.halfOpen, [5], some 0, 1⟩).1) ∧
    ((canExecute DEFAULT_NEVERHANG_CONFIG 1000000
        (loadState ⟨.open, 5, some 7, some 7, 0⟩)).2 = true ∧
      (canExecute DEFAULT_NEVERHANG_CONFIG 1000000
        (loadState ⟨.open, 5, some 7, some 7, 0⟩)).1.state = .halfOpen) := by
  have h1 := (c5_persist_roundtrip DEFAULT_NEVERHANG_CONFIG).1
    ⟨.halfOpen, [5], some 0, 1⟩ none (by decide)
  have h3 := (c5_persist_roundtrip DEFAULT_NEVERHANG_CONFIG).2.2
    ⟨.open, 5, some 7, some 7, 0⟩ 7 1000000 rfl rfl (by decide) (by decide)
  exact ⟨h1, h3⟩
